import Mathlib

/-!
Verification of the location-tracker core: the haversine distance function,
the stationary-segment classifier, and the track statistics aggregator.
The aggregator of `WorkoutComplete` is modelled as an explicit fold over the
consecutive point pairs of the recorded path, with its mutable locals
(`cumDist`, `lastSplitKm`, `splitStartTime`, `accruedMovingTime`,
`accruedPausedTime`, `pauseCount`, `splitsArr`) carried in a state record.
-/

namespace LocationTracker

open Real

/-- One GPS sample: latitude and longitude in decimal degrees, timestamp in
milliseconds. -/
structure LngLatTimestamp where
  latitude : ℝ
  longitude : ℝ
  timestamp : ℝ

/-- Mean Earth radius in meters, as in `utils/haversine.ts`. -/
def EARTH_RADIUS : ℝ := 6371000

/-- Degrees to radians, as in `toRadians`. -/
noncomputable def toRadians (deg : ℝ) : ℝ := deg * Real.pi / 180

/-- The JavaScript `Math.atan2(y, x)` function on real arguments. -/
noncomputable def atan2 (y x : ℝ) : ℝ :=
  if 0 < x then Real.arctan (y / x)
  else if x < 0 ∧ 0 ≤ y then Real.arctan (y / x) + Real.pi
  else if x < 0 ∧ y < 0 then Real.arctan (y / x) - Real.pi
  else if x = 0 ∧ 0 < y then Real.pi / 2
  else if x = 0 ∧ y < 0 then -(Real.pi / 2)
  else 0

/-- The intermediate value `a` of the haversine formula. -/
noncomputable def haversineA (lat1 lon1 lat2 lon2 : ℝ) : ℝ :=
  Real.sin (toRadians (lat2 - lat1) / 2) * Real.sin (toRadians (lat2 - lat1) / 2) +
    Real.cos (toRadians lat1) * Real.cos (toRadians lat2) *
      Real.sin (toRadians (lon2 - lon1) / 2) * Real.sin (toRadians (lon2 - lon1) / 2)

/-- Great-circle distance in meters, as in `utils/haversine.ts`. -/
noncomputable def haversine (lat1 lon1 lat2 lon2 : ℝ) : ℝ :=
  EARTH_RADIUS *
    (2 * atan2 (Real.sqrt (haversineA lat1 lon1 lat2 lon2))
      (Real.sqrt (1 - haversineA lat1 lon1 lat2 lon2)))

/-- The classifier with all four parameters explicit. -/
noncomputable def isStationaryFull (segmentDist timeDeltaSec speedThreshold pauseThresholdSec : ℝ) :
    Bool :=
  if timeDeltaSec ≥ pauseThresholdSec then
    decide (segmentDist / timeDeltaSec < speedThreshold)
  else
    false

/-- The classifier at its default thresholds (0.3 m/s, 5 s), which is how
`calculateStats` invokes it. -/
noncomputable def isStationary (segmentDist timeDeltaSec : ℝ) : Bool :=
  isStationaryFull segmentDist timeDeltaSec 0.3 5

/-- A per-kilometer split record. -/
structure Split where
  km : ℤ
  durationSec : ℝ

/-- The summary values `calculateStats` publishes. -/
structure Summary where
  distance : ℝ
  movingTime : ℝ
  totalTime : ℝ
  averageSpeed : ℝ
  pauseCount : ℕ
  splits : List Split

/-- The accumulator locals of `calculateStats`. -/
structure AccState where
  cumDist : ℝ
  lastSplitKm : ℤ
  splitStartTime : ℝ
  accruedMovingTime : ℝ
  accruedPausedTime : ℝ
  pauseCount : ℕ
  splitsArr : List Split

/-- The JavaScript remainder `x % y` (truncated division). -/
noncomputable def jsRem (x y : ℝ) : ℝ :=
  if 0 ≤ x / y then x - y * ⌊x / y⌋ else x - y * ⌈x / y⌉

/-- The per-segment distance (local `dist` of the loop body). -/
noncomputable def segDist (prev curr : LngLatTimestamp) : ℝ :=
  haversine prev.latitude prev.longitude curr.latitude curr.longitude

/-- The per-segment elapsed time in seconds (local `deltaT` of the loop body). -/
noncomputable def segDeltaT (prev curr : LngLatTimestamp) : ℝ :=
  (curr.timestamp - prev.timestamp) / 1000

/-- One iteration of the `for` loop of `calculateStats`, acting on the
accumulator state. -/
noncomputable def stepSegment (prev curr : LngLatTimestamp) (s : AccState) : AccState :=
  if isStationary (segDist prev curr) (segDeltaT prev curr) then
    { s with
      pauseCount := s.pauseCount + 1
      accruedPausedTime := s.accruedPausedTime + segDeltaT prev curr }
  else if ⌊(s.cumDist + segDist prev curr) / 1000⌋ > s.lastSplitKm then
    { cumDist := s.cumDist + segDist prev curr
      lastSplitKm := ⌊(s.cumDist + segDist prev curr) / 1000⌋
      splitStartTime := curr.timestamp -
        jsRem (s.cumDist + segDist prev curr) 1000 / segDist prev curr *
          segDeltaT prev curr * 1000
      accruedMovingTime := s.accruedMovingTime + segDeltaT prev curr
      accruedPausedTime := s.accruedPausedTime
      pauseCount := s.pauseCount
      splitsArr := s.splitsArr ++
        [{ km := s.lastSplitKm + 1
           durationSec := (curr.timestamp - s.splitStartTime) / 1000 }] }
  else
    { s with
      cumDist := s.cumDist + segDist prev curr
      accruedMovingTime := s.accruedMovingTime + segDeltaT prev curr }

/-- The loop of `calculateStats`: fold `stepSegment` over consecutive pairs,
threading the previous point. -/
noncomputable def foldSegments : List LngLatTimestamp → LngLatTimestamp → AccState → AccState
  | [], _, s => s
  | curr :: rest, prev, s => foldSegments rest curr (stepSegment prev curr s)

/-- The initial accumulator values of `calculateStats`. -/
def initState (p0 : LngLatTimestamp) : AccState :=
  { cumDist := 0
    lastSplitKm := 0
    splitStartTime := p0.timestamp
    accruedMovingTime := 0
    accruedPausedTime := 0
    pauseCount := 0
    splitsArr := [] }

/-- `calculateStats` on a path `p0 :: rest`: run the fold, then publish the
summary fields exactly as the source does. -/
noncomputable def calculateStats (p0 : LngLatTimestamp) (rest : List LngLatTimestamp) : Summary :=
  { distance := (foldSegments rest p0 (initState p0)).cumDist
    movingTime := (foldSegments rest p0 (initState p0)).accruedMovingTime
    totalTime := ((rest.getLastD p0).timestamp - p0.timestamp) / 1000
    averageSpeed :=
      if (foldSegments rest p0 (initState p0)).accruedMovingTime > 0 then
        (foldSegments rest p0 (initState p0)).cumDist /
          (foldSegments rest p0 (initState p0)).accruedMovingTime
      else 0
    pauseCount := (foldSegments rest p0 (initState p0)).pauseCount
    splits := (foldSegments rest p0 (initState p0)).splitsArr }

/-- The guarded entry point of `WorkoutComplete`: paths of fewer than two
points are rejected with an alert and no statistics are computed. -/
noncomputable def analyze (path : List LngLatTimestamp) : Option Summary :=
  if path.length < 2 then none
  else
    match path with
    | p0 :: rest => some (calculateStats p0 rest)
    | [] => none

/-- The spec sentence of §3 read literally: the split list carries kmIndex
values 1, 2, ..., n with no skip. Used to compare the spec against the code. -/
def kmIndexConsecutive (l : List Split) : Prop :=
  l.map Split.km = (List.range l.length).map fun i => (i : ℤ) + 1

theorem atan2_zero_one : atan2 0 1 = 0 := by
  unfold atan2
  rw [if_pos one_pos]
  norm_num [Real.arctan_zero]

theorem atan2_nonneg (y x : ℝ) (hy : 0 ≤ y) : 0 ≤ atan2 y x := by
  unfold atan2
  split_ifs with h1 h2 h3 h4 h5
  · rw [← Real.arctan_zero]
    exact Real.arctan_strictMono.monotone (div_nonneg hy h1.le)
  · have ha := Real.neg_pi_div_two_lt_arctan (y / x)
    have hpi := Real.pi_pos
    linarith
  · exact absurd hy (not_le.2 h3.2)
  · positivity
  · exact absurd hy (not_le.2 h5.2)
  · exact le_refl 0

theorem haversineA_self (lat lon : ℝ) : haversineA lat lon lat lon = 0 := by
  unfold haversineA toRadians
  simp

theorem haversine_self (lat lon : ℝ) : haversine lat lon lat lon = 0 := by
  unfold haversine
  rw [haversineA_self]
  simp [atan2_zero_one]

theorem haversine_nonneg (lat1 lon1 lat2 lon2 : ℝ) : 0 ≤ haversine lat1 lon1 lat2 lon2 := by
  unfold haversine
  have h := atan2_nonneg (Real.sqrt (haversineA lat1 lon1 lat2 lon2))
    (Real.sqrt (1 - haversineA lat1 lon1 lat2 lon2)) (Real.sqrt_nonneg _)
  have hE : (0:ℝ) ≤ EARTH_RADIUS := by norm_num [EARTH_RADIUS]
  apply mul_nonneg hE
  linarith

theorem haversineA_symm (lat1 lon1 lat2 lon2 : ℝ) :
    haversineA lat2 lon2 lat1 lon1 = haversineA lat1 lon1 lat2 lon2 := by
  unfold haversineA toRadians
  rw [show (lat1 - lat2) * Real.pi / 180 / 2 = -((lat2 - lat1) * Real.pi / 180 / 2) by ring,
    show (lon1 - lon2) * Real.pi / 180 / 2 = -((lon2 - lon1) * Real.pi / 180 / 2) by ring,
    Real.sin_neg, Real.sin_neg]
  ring

/-- C9: the haversine distance is symmetric in its two coordinate pairs, for
all coordinates in the valid latitude and longitude ranges. -/
theorem haversine_symm (lat1 lon1 lat2 lon2 : ℝ)
    (hlat1 : -90 ≤ lat1 ∧ lat1 ≤ 90) (hlat2 : -90 ≤ lat2 ∧ lat2 ≤ 90)
    (hlon1 : -180 ≤ lon1 ∧ lon1 ≤ 180) (hlon2 : -180 ≤ lon2 ∧ lon2 ≤ 180) :
    haversine lat1 lon1 lat2 lon2 = haversine lat2 lon2 lat1 lon1 := by
  unfold haversine
  rw [haversineA_symm]

/-- Witness for C9 at the concrete coordinate pairs (0°, 0°) and (1°, 1°). -/
theorem haversine_symm_witness : haversine 0 0 1 1 = haversine 1 1 0 0 :=
  haversine_symm 0 0 1 1 (by norm_num) (by norm_num) (by norm_num) (by norm_num)

/-- C2: with the default thresholds, `isStationary d t` is true exactly when
`t ≥ 5` and `d / t < 0.3`; in particular it is false whenever `t < 5`. -/
theorem isStationary_characterization (d t : ℝ) :
    (isStationary d t = true ↔ t ≥ 5 ∧ d / t < 0.3) ∧
      (t < 5 → isStationary d t = false) := by
  unfold isStationary isStationaryFull
  constructor
  · split_ifs with h
    · simp [h]
    · simp [h]
  · intro ht
    have h : ¬ (t ≥ 5) := not_le.2 ht
    rw [if_neg h]

/-- Witness for C2: a two-second segment is never classified stationary. -/
theorem isStationary_characterization_witness : isStationary 100 2 = false :=
  (isStationary_characterization 100 2).2 (by norm_num)

/-- C8: at `deltaSeconds = 0`, which is below the 5-second pause threshold,
`isStationary` returns false for every distance; the duration guard fires
before the speed quotient is consulted. -/
theorem isStationary_zero_delta (d : ℝ) : isStationary d 0 = false := by
  have h : ¬ ((0:ℝ) ≥ 5) := by norm_num
  unfold isStationary isStationaryFull
  rw [if_neg h]

/-- C3: a path with fewer than two points is rejected: `analyze` yields no
summary at all. -/
theorem analyze_insufficient (path : List LngLatTimestamp) (h : path.length < 2) :
    analyze path = none := by
  unfold analyze
  rw [if_pos h]

/-- Witness for C3 on the empty path and on a singleton path. -/
theorem analyze_insufficient_witness :
    analyze [] = none ∧ analyze [⟨0, 0, 0⟩] = none :=
  ⟨analyze_insufficient [] (by simp), analyze_insufficient [⟨0, 0, 0⟩] (by simp)⟩

theorem stepSegment_paused (prev curr : LngLatTimestamp) (s : AccState)
    (h : isStationary (segDist prev curr) (segDeltaT prev curr) = true) :
    stepSegment prev curr s =
      { s with
        pauseCount := s.pauseCount + 1
        accruedPausedTime := s.accruedPausedTime + segDeltaT prev curr } := by
  unfold stepSegment
  rw [h]
  rw [if_pos rfl]

theorem stepSegment_moving_split (prev curr : LngLatTimestamp) (s : AccState)
    (h : isStationary (segDist prev curr) (segDeltaT prev curr) = false)
    (hk : ⌊(s.cumDist + segDist prev curr) / 1000⌋ > s.lastSplitKm) :
    stepSegment prev curr s =
      { cumDist := s.cumDist + segDist prev curr
        lastSplitKm := ⌊(s.cumDist + segDist prev curr) / 1000⌋
        splitStartTime := curr.timestamp -
          jsRem (s.cumDist + segDist prev curr) 1000 / segDist prev curr *
            segDeltaT prev curr * 1000
        accruedMovingTime := s.accruedMovingTime + segDeltaT prev curr
        accruedPausedTime := s.accruedPausedTime
        pauseCount := s.pauseCount
        splitsArr := s.splitsArr ++
          [{ km := s.lastSplitKm + 1
             durationSec := (curr.timestamp - s.splitStartTime) / 1000 }] } := by
  unfold stepSegment
  rw [h]
  simp only [Bool.false_eq_true, if_false]
  rw [if_pos hk]

theorem stepSegment_moving_nosplit (prev curr : LngLatTimestamp) (s : AccState)
    (h : isStationary (segDist prev curr) (segDeltaT prev curr) = false)
    (hk : ¬ ⌊(s.cumDist + segDist prev curr) / 1000⌋ > s.lastSplitKm) :
    stepSegment prev curr s =
      { s with
        cumDist := s.cumDist + segDist prev curr
        accruedMovingTime := s.accruedMovingTime + segDeltaT prev curr } := by
  unfold stepSegment
  rw [h]
  simp only [Bool.false_eq_true, if_false]
  rw [if_neg hk]

theorem stepSegment_time_sum (prev curr : LngLatTimestamp) (s : AccState) :
    (stepSegment prev curr s).accruedMovingTime + (stepSegment prev curr s).accruedPausedTime =
      s.accruedMovingTime + s.accruedPausedTime + segDeltaT prev curr := by
  unfold stepSegment
  split_ifs <;> dsimp <;> ring

theorem foldSegments_time_sum (rest : List LngLatTimestamp) :
    ∀ (prev : LngLatTimestamp) (s : AccState),
      (foldSegments rest prev s).accruedMovingTime +
          (foldSegments rest prev s).accruedPausedTime =
        s.accruedMovingTime + s.accruedPausedTime +
          ((rest.getLastD prev).timestamp - prev.timestamp) / 1000 := by
  induction rest with
  | nil =>
    intro prev s
    simp [foldSegments, List.getLastD]
  | cons c rest ih =>
    intro prev s
    simp only [foldSegments]
    rw [ih c (stepSegment prev c s), stepSegment_time_sum, List.getLastD_cons]
    unfold segDeltaT
    ring

/-- C4: every segment's time is credited to exactly one of the moving and
paused accumulators, so published moving time plus accrued paused time equals
the published total elapsed time, which is the first-to-last timestamp
difference over 1000. -/
theorem moving_plus_paused_eq_elapsed (p0 : LngLatTimestamp) (rest : List LngLatTimestamp) :
    (calculateStats p0 rest).movingTime +
        (foldSegments rest p0 (initState p0)).accruedPausedTime =
      (calculateStats p0 rest).totalTime ∧
    (calculateStats p0 rest).totalTime =
      ((rest.getLastD p0).timestamp - p0.timestamp) / 1000 := by
  unfold calculateStats
  dsimp only
  refine ⟨?_, rfl⟩
  have h := foldSegments_time_sum rest p0 (initState p0)
  simp only [initState] at h
  simpa using h

/-- C6: the published average speed is moving distance over moving time when
the accrued moving time is positive, and exactly 0 when it is zero. -/
theorem averageSpeed_guarded (p0 : LngLatTimestamp) (rest : List LngLatTimestamp) :
    ((calculateStats p0 rest).movingTime > 0 →
      (calculateStats p0 rest).averageSpeed =
        (calculateStats p0 rest).distance / (calculateStats p0 rest).movingTime) ∧
    ((calculateStats p0 rest).movingTime = 0 →
      (calculateStats p0 rest).averageSpeed = 0) := by
  unfold calculateStats
  dsimp only
  constructor
  · intro h
    rw [if_pos h]
  · intro h
    rw [if_neg (by rw [h]; exact lt_irrefl 0)]

theorem segDist_same_coords (lat lon t1 t2 : ℝ) :
    segDist ⟨lat, lon, t1⟩ ⟨lat, lon, t2⟩ = 0 := by
  unfold segDist
  exact haversine_self lat lon

theorem isStationary_zero_ten : isStationary 0 10 = true := by
  unfold isStationary isStationaryFull
  rw [if_pos (by norm_num : (10:ℝ) ≥ 5)]
  norm_num

theorem calculateStats_pause_pair (lat lon t0 : ℝ) :
    calculateStats ⟨lat, lon, t0⟩ [⟨lat, lon, t0 + 10000⟩] =
      { distance := 0, movingTime := 0, totalTime := 10, averageSpeed := 0,
        pauseCount := 1, splits := [] } := by
  have hd : segDist ⟨lat, lon, t0⟩ ⟨lat, lon, t0 + 10000⟩ = 0 :=
    segDist_same_coords lat lon t0 (t0 + 10000)
  have ht : segDeltaT ⟨lat, lon, t0⟩ ⟨lat, lon, t0 + 10000⟩ = 10 := by
    unfold segDeltaT
    dsimp only
    ring
  simp only [calculateStats, foldSegments]
  rw [stepSegment_paused _ _ _ (by rw [hd, ht]; exact isStationary_zero_ten)]
  rw [ht]
  simp [initState, List.getLastD, Summary.mk.injEq]
  norm_num

/-- C5: a two-point track at identical coordinates ten seconds apart is a
single stationary segment: one pause, zero moving distance and moving time,
ten elapsed seconds, an empty splits list, and average speed 0. -/
theorem analyze_pause_pair (lat lon t0 : ℝ) :
    isStationary (segDist ⟨lat, lon, t0⟩ ⟨lat, lon, t0 + 10000⟩)
        (segDeltaT ⟨lat, lon, t0⟩ ⟨lat, lon, t0 + 10000⟩) = true ∧
    analyze [⟨lat, lon, t0⟩, ⟨lat, lon, t0 + 10000⟩] =
      some { distance := 0, movingTime := 0, totalTime := 10, averageSpeed := 0,
             pauseCount := 1, splits := [] } := by
  constructor
  · rw [segDist_same_coords]
    rw [show segDeltaT ⟨lat, lon, t0⟩ ⟨lat, lon, t0 + 10000⟩ = 10 from by
      unfold segDeltaT; dsimp only; ring]
    exact isStationary_zero_ten
  · unfold analyze
    rw [if_neg (by simp)]
    exact congrArg some (calculateStats_pause_pair lat lon t0)

/-- C7: a paused segment only increments the pause count and the paused-time
accumulator; cumulative moving distance, moving time, `lastSplitKm`,
`splitStartTime` and the splits list are all left unchanged. -/
theorem paused_segment_frame (prev curr : LngLatTimestamp) (s : AccState)
    (h : isStationary (segDist prev curr) (segDeltaT prev curr) = true) :
    stepSegment prev curr s =
      { s with
        pauseCount := s.pauseCount + 1
        accruedPausedTime := s.accruedPausedTime + segDeltaT prev curr } :=
  stepSegment_paused prev curr s h

/-- Witness for C7: the concrete stationary segment between two identical
points ten seconds apart, from the initial accumulator state. -/
theorem paused_segment_frame_witness :
    stepSegment ⟨0, 0, 0⟩ ⟨0, 0, 10000⟩ (initState ⟨0, 0, 0⟩) =
      { cumDist := 0, lastSplitKm := 0, splitStartTime := 0, accruedMovingTime := 0,
        accruedPausedTime := 10, pauseCount := 1, splitsArr := [] } := by
  have hd : segDist ⟨0, 0, 0⟩ ⟨0, 0, 10000⟩ = 0 := segDist_same_coords 0 0 0 10000
  have ht : segDeltaT ⟨0, 0, 0⟩ ⟨0, 0, 10000⟩ = 10 := by unfold segDeltaT; norm_num
  rw [paused_segment_frame _ _ _ (by rw [hd, ht]; exact isStationary_zero_ten)]
  rw [ht]
  simp [initState]

/-- Witness for C6: zero accrued moving time yields average speed 0 on the
stationary two-point track. -/
theorem averageSpeed_guarded_witness :
    (calculateStats ⟨0, 0, 0⟩ [⟨0, 0, 10000⟩]).averageSpeed = 0 := by
  apply (averageSpeed_guarded ⟨0, 0, 0⟩ [⟨0, 0, 10000⟩]).2
  have h := calculateStats_pause_pair 0 0 0
  norm_num at h
  rw [h]

/-- The split-list bookkeeping invariant: `lastSplitKm` is non-negative, every
emitted `km` is at most `lastSplitKm`, and prefixing 0 to the km list keeps it
strictly ascending. -/
def splitsInv (s : AccState) : Prop :=
  0 ≤ s.lastSplitKm ∧ (∀ k ∈ s.splitsArr.map Split.km, k ≤ s.lastSplitKm) ∧
    ((0:ℤ) :: s.splitsArr.map Split.km).Pairwise (· < ·)

theorem splitsInv_init (p0 : LngLatTimestamp) : splitsInv (initState p0) := by
  refine ⟨le_refl 0, ?_, ?_⟩
  · intro k hk
    simp [initState] at hk
  · simp [initState]

theorem splitsInv_step (prev curr : LngLatTimestamp) (s : AccState) (h : splitsInv s) :
    splitsInv (stepSegment prev curr s) := by
  obtain ⟨h0, h1, h2⟩ := h
  unfold stepSegment
  split_ifs with hp hk
  · exact ⟨h0, h1, h2⟩
  · refine ⟨?_, ?_, ?_⟩
    · dsimp only
      exact le_of_lt (lt_of_le_of_lt h0 hk)
    · dsimp only
      intro k hk2
      rw [List.map_append] at hk2
      rcases List.mem_append.1 hk2 with hmem | hmem
      · exact le_trans (h1 k hmem) (le_of_lt hk)
      · simp only [List.map_cons, List.map_nil, List.mem_singleton] at hmem
        omega
    · dsimp only
      rw [List.map_append, ← List.cons_append]
      simp only [List.map_cons, List.map_nil]
      refine List.pairwise_append.2 ⟨h2, List.pairwise_singleton _ _, ?_⟩
      intro a ha b hb
      simp only [List.mem_singleton] at hb
      subst hb
      rcases List.mem_cons.1 ha with rfl | ha2
      · omega
      · have := h1 a ha2
        omega
  · exact ⟨h0, h1, h2⟩

theorem splitsInv_fold (rest : List LngLatTimestamp) :
    ∀ (prev : LngLatTimestamp) (s : AccState),
      splitsInv s → splitsInv (foldSegments rest prev s) := by
  induction rest with
  | nil =>
    intro prev s h
    exact h
  | cons c rest ih =>
    intro prev s h
    simp only [foldSegments]
    exact ih c _ (splitsInv_step prev c s h)

/-- C1 amended: for every accepted track the splits are emitted with strictly
ascending `kmIndex` values, all at least 1 (encoded by the `0 ::` head);
consecutive indices can skip values when one moving segment crosses more than
one kilometer boundary. -/
theorem splits_strictly_ascending (p0 : LngLatTimestamp) (rest : List LngLatTimestamp) :
    ((0:ℤ) :: (calculateStats p0 rest).splits.map Split.km).Pairwise (· < ·) :=
  (splitsInv_fold rest p0 (initState p0) (splitsInv_init p0)).2.2

/-- The boundary-branch safety invariant: the last completed kilometer index
is never behind the floor of the accumulated moving distance. -/
def kmInv (s : AccState) : Prop := ⌊s.cumDist / 1000⌋ ≤ s.lastSplitKm

/-- C10: the haversine distance is non-negative, the aggregator establishes
and preserves `kmInv`, and under `kmInv` the kilometer-boundary branch can
only be entered with a strictly positive segment distance — so the
interpolation quotient never divides by zero. -/
theorem boundary_branch_needs_positive_dist :
    (∀ lat1 lon1 lat2 lon2 : ℝ, 0 ≤ haversine lat1 lon1 lat2 lon2) ∧
    (∀ p0 : LngLatTimestamp, kmInv (initState p0)) ∧
    (∀ (prev curr : LngLatTimestamp) (s : AccState),
      kmInv s → kmInv (stepSegment prev curr s)) ∧
    (∀ (prev curr : LngLatTimestamp) (s : AccState), kmInv s →
      s.lastSplitKm < ⌊(s.cumDist + segDist prev curr) / 1000⌋ →
      0 < segDist prev curr) := by
  refine ⟨haversine_nonneg, ?_, ?_, ?_⟩
  · intro p0
    simp [kmInv, initState]
  · intro prev curr s h
    unfold kmInv at h ⊢
    unfold stepSegment
    split_ifs with hp hk
    · exact h
    · exact le_refl _
    · exact not_lt.1 hk
  · intro prev curr s h hlt
    by_contra hnp
    push_neg at hnp
    have hle : s.cumDist + segDist prev curr ≤ s.cumDist := by linarith
    have hdiv : (s.cumDist + segDist prev curr) / 1000 ≤ s.cumDist / 1000 :=
      (div_le_div_iff_of_pos_right (by norm_num : (0:ℝ) < 1000)).2 hle
    have hf : ⌊(s.cumDist + segDist prev curr) / 1000⌋ ≤ ⌊s.cumDist / 1000⌋ :=
      Int.floor_le_floor hdiv
    exact absurd h (not_le.2 (lt_of_lt_of_le hlt hf))

/-- Exact closed form of the haversine distance along the equator: a pure
longitude difference below 180° maps to arc length radius times angle. -/
theorem haversine_equator (lon1 lon2 : ℝ) (h0 : lon1 ≤ lon2) (h1 : lon2 - lon1 < 180) :
    haversine 0 lon1 0 lon2 = EARTH_RADIUS * toRadians (lon2 - lon1) := by
  have hpi := Real.pi_pos
  set θ := toRadians (lon2 - lon1) / 2 with hθ
  have hd0 : 0 ≤ lon2 - lon1 := by linarith
  have hθ0 : 0 ≤ θ := by
    rw [hθ]
    unfold toRadians
    have := mul_nonneg hd0 hpi.le
    positivity
  have hθlt : θ < Real.pi / 2 := by
    rw [hθ]
    unfold toRadians
    have h2 : (lon2 - lon1) * Real.pi < 180 * Real.pi :=
      mul_lt_mul_of_pos_right h1 hpi
    linarith
  have hA : haversineA 0 lon1 0 lon2 = Real.sin θ * Real.sin θ := by
    unfold haversineA
    rw [hθ]
    simp [toRadians]
  have hsin : 0 ≤ Real.sin θ := Real.sin_nonneg_of_nonneg_of_le_pi hθ0 (by linarith)
  have hcos : 0 < Real.cos θ := Real.cos_pos_of_mem_Ioo ⟨by linarith, hθlt⟩
  have hpyth := Real.sin_sq_add_cos_sq θ
  rw [pow_two, pow_two] at hpyth
  have h1A : 1 - Real.sin θ * Real.sin θ = Real.cos θ * Real.cos θ := by
    linarith
  unfold haversine
  rw [hA, h1A, Real.sqrt_mul_self hsin, Real.sqrt_mul_self hcos.le]
  unfold atan2
  rw [if_pos hcos, ← Real.tan_eq_sin_div_cos, Real.arctan_tan (by linarith) hθlt, hθ]
  ring

/-- The exact haversine distance of a 0.02° longitude step on the equator. -/
noncomputable def d002 : ℝ := EARTH_RADIUS * toRadians 0.02

theorem d002_bounds : 2123 < d002 ∧ d002 < 2230 := by
  unfold d002 EARTH_RADIUS toRadians
  have h3 := Real.pi_gt_three
  have h4 := Real.pi_lt_d2
  constructor <;> nlinarith

theorem segDist_AB (tA tB : ℝ) : segDist ⟨0, 0, tA⟩ ⟨0, 0.02, tB⟩ = d002 := by
  unfold segDist d002
  dsimp only
  have h := haversine_equator 0 0.02 (by norm_num) (by norm_num)
  rw [show (0.02 - 0 : ℝ) = 0.02 by norm_num] at h
  exact h

theorem segDist_BC (tB tC : ℝ) : segDist ⟨0, 0.02, tB⟩ ⟨0, 0.04, tC⟩ = d002 := by
  unfold segDist d002
  dsimp only
  have h := haversine_equator 0.02 0.04 (by norm_num) (by norm_num)
  rw [show (0.04 - 0.02 : ℝ) = 0.02 by norm_num] at h
  exact h

theorem isStationary_d002 : isStationary d002 10 = false := by
  unfold isStationary isStationaryFull
  rw [if_pos (by norm_num : (10:ℝ) ≥ 5)]
  have hb := d002_bounds
  rw [decide_eq_false_iff_not, not_lt]
  have h1 : (2123:ℝ) < d002 := hb.1
  norm_num
  linarith

theorem floor_d002 : ⌊d002 / 1000⌋ = 2 := by
  have hb := d002_bounds
  rw [Int.floor_eq_iff]
  constructor
  · push_cast
    linarith [hb.1]
  · push_cast
    linarith [hb.2]

theorem floor_2d002 : ⌊(d002 + d002) / 1000⌋ = 4 := by
  have hb := d002_bounds
  rw [Int.floor_eq_iff]
  constructor
  · push_cast
    linarith [hb.1]
  · push_cast
    linarith [hb.2]

theorem jump_track_step1 :
    stepSegment ⟨0, 0, 0⟩ ⟨0, 0.02, 10000⟩ (initState ⟨0, 0, 0⟩) =
      { cumDist := d002
        lastSplitKm := 2
        splitStartTime := 10000 - jsRem d002 1000 / d002 * 10 * 1000
        accruedMovingTime := 10
        accruedPausedTime := 0
        pauseCount := 0
        splitsArr := [{ km := 1, durationSec := 10 }] } := by
  have hd : segDist ⟨0, 0, 0⟩ ⟨0, 0.02, 10000⟩ = d002 := segDist_AB 0 10000
  have ht : segDeltaT ⟨0, 0, 0⟩ ⟨0, 0.02, 10000⟩ = 10 := by
    unfold segDeltaT
    norm_num
  have hcond : ⌊((initState (⟨0, 0, 0⟩ : LngLatTimestamp)).cumDist +
        segDist ⟨0, 0, 0⟩ ⟨0, 0.02, 10000⟩) / 1000⌋ >
      (initState (⟨0, 0, 0⟩ : LngLatTimestamp)).lastSplitKm := by
    simp only [initState, hd, zero_add, floor_d002]
    norm_num
  rw [stepSegment_moving_split _ _ _ (by rw [hd, ht]; exact isStationary_d002) hcond]
  simp only [initState, hd, ht, zero_add, floor_d002, List.nil_append]
  norm_num

theorem jump_track_step2 :
    stepSegment ⟨0, 0.02, 10000⟩ ⟨0, 0.04, 20000⟩
      { cumDist := d002
        lastSplitKm := 2
        splitStartTime := 10000 - jsRem d002 1000 / d002 * 10 * 1000
        accruedMovingTime := 10
        accruedPausedTime := 0
        pauseCount := 0
        splitsArr := [{ km := 1, durationSec := 10 }] } =
      { cumDist := d002 + d002
        lastSplitKm := 4
        splitStartTime := 20000 - jsRem (d002 + d002) 1000 / d002 * 10 * 1000
        accruedMovingTime := 20
        accruedPausedTime := 0
        pauseCount := 0
        splitsArr := [{ km := 1, durationSec := 10 },
          { km := 3, durationSec :=
            (20000 - (10000 - jsRem d002 1000 / d002 * 10 * 1000)) / 1000 }] } := by
  have hd : segDist ⟨0, 0.02, 10000⟩ ⟨0, 0.04, 20000⟩ = d002 := segDist_BC 10000 20000
  have ht : segDeltaT ⟨0, 0.02, 10000⟩ ⟨0, 0.04, 20000⟩ = 10 := by
    unfold segDeltaT
    norm_num
  rw [stepSegment_moving_split _ _ _ (by rw [hd, ht]; exact isStationary_d002)
    (by dsimp only; rw [hd, floor_2d002]; norm_num)]
  simp only [hd, ht, floor_2d002]
  norm_num

theorem calculateStats_jump_track_splits :
    (calculateStats ⟨0, 0, 0⟩ [⟨0, 0.02, 10000⟩, ⟨0, 0.04, 20000⟩]).splits.map Split.km =
      [1, 3] := by
  show ((foldSegments [⟨0, 0.02, 10000⟩, ⟨0, 0.04, 20000⟩] ⟨0, 0, 0⟩
      (initState ⟨0, 0, 0⟩)).splitsArr).map Split.km = [1, 3]
  simp only [foldSegments]
  rw [jump_track_step1, jump_track_step2]
  rfl

/-- C1 counterexample: on the equator track whose two moving segments each
cover about 2224 m, the emitted kmIndex values are 1 and 3 — kmIndex 2 is
skipped, so the emitted indices are not 1, 2, ... as the claim requires. -/
theorem splits_skip_counterexample :
    ¬ kmIndexConsecutive
      (calculateStats ⟨0, 0, 0⟩ [⟨0, 0.02, 10000⟩, ⟨0, 0.04, 20000⟩]).splits := by
  intro hcon
  unfold kmIndexConsecutive at hcon
  have hlen := congrArg List.length calculateStats_jump_track_splits
  rw [List.length_map] at hlen
  simp only [List.length_cons, List.length_nil] at hlen
  rw [calculateStats_jump_track_splits, hlen] at hcon
  have hne : ((1:ℤ) :: 3 :: []) ≠ (List.range 2).map fun i => (i : ℤ) + 1 := by decide
  exact hne hcon

/-- Witness for C10: from a state 999 m into the current kilometer, entering
the boundary branch on the 0.02°-equator segment forces a strictly positive
segment distance. -/
theorem boundary_branch_witness :
    0 < segDist ⟨0, 0, 0⟩ ⟨0, 0.02, 10000⟩ := by
  have hfl : ⌊(999:ℝ) / 1000⌋ = 0 := by
    rw [Int.floor_eq_iff]
    norm_num
  have hinv : kmInv ⟨999, 0, 0, 0, 0, 0, []⟩ := by
    unfold kmInv
    dsimp only
    rw [hfl]
  have hlt : (⟨999, 0, 0, 0, 0, 0, []⟩ : AccState).lastSplitKm <
      ⌊((⟨999, 0, 0, 0, 0, 0, []⟩ : AccState).cumDist +
        segDist ⟨0, 0, 0⟩ ⟨0, 0.02, 10000⟩) / 1000⌋ := by
    dsimp only
    rw [segDist_AB]
    have hb := d002_bounds
    have h1 : (3:ℤ) ≤ ⌊((999:ℝ) + d002) / 1000⌋ := by
      rw [Int.le_floor]
      push_cast
      linarith [hb.1]
    linarith
  exact boundary_branch_needs_positive_dist.2.2.2 _ _ _ hinv hlt

end LocationTracker
